import Mathlib

/-!
Shallow embedding of `bubop/fs.py`.

The module has three entry points:
- `FileType.exists` — existence query for a path, dispatched on the kind;
- `valid_path` — expand `~` in a string, check existence, raise on failure;
- `get_valid_filename` — sanitize a string into a filesystem-safe filename.

Modelling choices:
- The filesystem is external state; we model it as a function
  `FS : List Char → Option EntityType` giving, for each (already-expanded)
  path string, the type of the entity found there (regular file,
  directory, or something else such as a socket), or `none` when the
  path does not exist.  Python's `p.is_file()` / `p.is_dir()` /
  `p.exists()` become queries on this map.
- Python strings are modelled as `List Char` (Unicode code points).
- `Path(s).expanduser()` is modelled for the invoking user's tilde
  (`"~"` alone or a leading `"~/"`); the `~user` form for other users
  is outside the spec and not modelled.
- Python's raising of exceptions becomes `Except FsError (List Char)`.
- The regex class `(?u)\w` (Unicode word character) has no primitive
  Lean counterpart; the sanitizer is parameterized by a predicate
  `w : Char → Bool` standing for `\w`.  Concrete evaluations use
  `isWordChar`, the ASCII instance (letters, digits, underscore),
  which agrees with `\w` on every ASCII input appearing in the
  doctests.  Python's `str.strip` removes Unicode whitespace; we use
  `Char.isWhitespace` (space, tab, CR, LF), which agrees on ASCII.
-/

/-- The type of entity present at an existing path: a regular file, a
directory, or some other filesystem object (socket, device, ...). -/
inductive EntityType where
  | file
  | dir
  | other
deriving DecidableEq, Repr

/-- A filesystem snapshot: maps each path string to the entity found
there, or `none` when nothing exists at that path. -/
def FS : Type := List Char → Option EntityType

/-- Python `Path.is_file()`: true iff a regular file is at `p`. -/
def isFileAt (fs : FS) (p : List Char) : Bool :=
  match fs p with
  | some .file => true
  | _ => false

/-- Python `Path.is_dir()`: true iff a directory is at `p`. -/
def isDirAt (fs : FS) (p : List Char) : Bool :=
  match fs p with
  | some .dir => true
  | _ => false

/-- Python `Path.exists()`: true iff anything is at `p`. -/
def existsAt (fs : FS) (p : List Char) : Bool :=
  (fs p).isSome

/-- The `FileType` enum of `bubop/fs.py`. -/
inductive FileType where
  | FILE
  | DIR
  | FILE_OR_DIR
deriving DecidableEq, Repr

/-- The `_file_type_to_exists_fn` lookup table: kind ↦ existence
predicate. -/
def fileTypeToExistsFn : FileType → FS → List Char → Bool
  | .FILE => isFileAt
  | .DIR => isDirAt
  | .FILE_OR_DIR => existsAt

/-- Method `FileType.exists(self, path)`: dispatch through the lookup
table. -/
def FileType.existsOn (ft : FileType) (fs : FS) (p : List Char) : Bool :=
  fileTypeToExistsFn ft fs p

/-- The exceptions `valid_path` can raise, each carrying the offending
path (as Python passes `path` to the exception constructor). -/
inductive FsError where
  | FileNotFoundError (path : List Char)
  | NotADirectoryError (path : List Char)
  | NoSuchFileOrDirectoryError (path : List Char)
deriving DecidableEq, Repr

/-- The path carried by an `FsError`. -/
def FsError.path : FsError → List Char
  | .FileNotFoundError p => p
  | .NotADirectoryError p => p
  | .NoSuchFileOrDirectoryError p => p

/-- The `_file_type_to_not_exists_exc` lookup table: kind ↦ exception
constructor. -/
def fileTypeToNotExistsExc : FileType → List Char → FsError
  | .FILE => FsError.FileNotFoundError
  | .DIR => FsError.NotADirectoryError
  | .FILE_OR_DIR => FsError.NoSuchFileOrDirectoryError

/-- Python `Path(s).expanduser()` restricted to the invoking user's tilde:
a lone `"~"` becomes the home directory, a leading `"~/"` is replaced
by the home directory plus the separator; anything else is unchanged. -/
def expanduser (home : List Char) (s : List Char) : List Char :=
  if s = ['~'] then home
  else if s.take 2 = ['~', '/'] then home ++ s.drop 1
  else s

/-- The function `valid_path(s, filetype=FileType.FILE_OR_DIR)`: expand the user
tilde, test existence of the required kind, return the expanded path on
success and the kind's exception (carrying the expanded path) on
failure. -/
def valid_path (fs : FS) (home : List Char) (s : List Char)
    (filetype : FileType := .FILE_OR_DIR) : Except FsError (List Char) :=
  let path := expanduser home s
  if filetype.existsOn fs path then
    .ok path
  else
    .error (fileTypeToNotExistsExc filetype path)

/-- Python `str.strip()`: drop whitespace from both ends. -/
def pyStrip (s : List Char) : List Char :=
  ((s.dropWhile Char.isWhitespace).reverse.dropWhile Char.isWhitespace).reverse

/-- Python `str.replace(" ", "_")`: replace every space by an
underscore. -/
def replaceSpace (s : List Char) : List Char :=
  s.map fun c => if c = ' ' then '_' else c

/-- The substitution `re.sub(r"(?u)[^-\w.]", "_", s)` for a word-character predicate
`w`: every character that is not a word character, a hyphen, or a
period becomes an underscore. -/
def subNonWord (w : Char → Bool) (s : List Char) : List Char :=
  s.map fun c => if w c || c = '-' || c = '.' then c else '_'

/-- The function `get_valid_filename(s)`: strip, replace spaces by underscores, then
substitute every disallowed character by an underscore. -/
def get_valid_filename (w : Char → Bool) (s : List Char) : List Char :=
  subNonWord w (replaceSpace (pyStrip s))

/-- ASCII instance of the regex `\w` class: letters, digits,
underscore.  Agrees with Python's Unicode-aware `\w` on all ASCII
characters. -/
def isWordChar (c : Char) : Bool :=
  c.isAlphanum || c = '_'

/-- The sanitizer as the spec states it, written from the spec's words:
convert to string, strip leading and trailing whitespace, replace each
interior space with `_`, then replace every character that is not a
letter, digit, underscore, hyphen, or period with `_`.  (After the
strip, every remaining space is interior, so replacing every space is
replacing each interior space.) -/
def sanitize_filename_spec (letter digit : Char → Bool) (s : List Char) :
    List Char :=
  let stripped :=
    ((s.dropWhile Char.isWhitespace).reverse.dropWhile Char.isWhitespace).reverse
  let spaced := stripped.map fun c => if c = ' ' then '_' else c
  spaced.map fun c =>
    if letter c || digit c || c = '_' || c = '-' || c = '.' then c else '_'

/-- A concrete filesystem snapshot used to exercise the path
validator: a regular file at `/etc/passwd` and a directory at `/etc`. -/
def sampleFS : FS := fun p =>
  if p = "/etc/passwd".toList then some .file
  else if p = "/etc".toList then some .dir
  else none

/-! ### Helper lemmas on lists -/

theorem map_id_of_mem {l : List Char} {f : Char → Char}
    (h : ∀ c ∈ l, f c = c) : l.map f = l := by
  induction l with
  | nil => rfl
  | cons a t ih =>
    simp only [List.map_cons]
    rw [h a (List.mem_cons_self a t), ih fun c hc => h c (List.mem_cons_of_mem a hc)]

theorem dropWhile_eq_self_of {l : List Char} {p : Char → Bool}
    (h : ∀ c ∈ l, p c = false) : l.dropWhile p = l := by
  cases l with
  | nil => rfl
  | cons a t =>
    rw [List.dropWhile_cons, h a (List.mem_cons_self a t)]
    simp

theorem length_dropWhile_le (l : List Char) (p : Char → Bool) :
    (l.dropWhile p).length ≤ l.length := by
  induction l with
  | nil => exact Nat.le_refl 0
  | cons a t ih =>
    rw [List.dropWhile_cons]
    cases p a with
    | true => simpa using Nat.le_succ_of_le ih
    | false => simp

theorem pyStrip_eq_self {s : List Char}
    (h : ∀ c ∈ s, c.isWhitespace = false) : pyStrip s = s := by
  unfold pyStrip
  rw [dropWhile_eq_self_of h]
  rw [dropWhile_eq_self_of fun c hc => h c (List.mem_reverse.mp hc)]
  exact List.reverse_reverse s

theorem replaceSpace_eq_self {s : List Char}
    (h : ∀ c ∈ s, ¬c = ' ') : replaceSpace s = s :=
  map_id_of_mem fun c hc => if_neg (h c hc)

theorem subNonWord_eq_self {w : Char → Bool} {s : List Char}
    (h : ∀ c ∈ s, (w c || c = '-' || c = '.') = true) : subNonWord w s = s :=
  map_id_of_mem fun c hc => if_pos (h c hc)

/-- Every character of the sanitizer's output is a word character, a
hyphen, or a period (as a boolean test), provided `_` is a word
character — each input character is either kept because it passes the
test or replaced by `_`. -/
theorem mem_get_valid_filename {w : Char → Bool} (hu : w '_' = true)
    {s : List Char} {c : Char} (hc : c ∈ get_valid_filename w s) :
    (w c || c = '-' || c = '.') = true := by
  unfold get_valid_filename subNonWord at hc
  rcases List.mem_map.1 hc with ⟨a, _, rfl⟩
  by_cases hk : (w a || a = '-' || a = '.') = true
  · rw [if_pos hk]; exact hk
  · rw [if_neg hk]; simp [hu]

/-- The ASCII word-character predicate never holds of a whitespace
character. -/
theorem isWordChar_not_whitespace (c : Char) (h : isWordChar c = true) :
    c.isWhitespace = false := by
  cases hws : c.isWhitespace
  · rfl
  · exfalso
    simp only [Char.isWhitespace, Bool.or_eq_true, decide_eq_true_eq] at hws
    rcases hws with ((rfl | rfl) | rfl) | rfl <;> exact absurd h (by decide)

/-! ### Claim theorems -/

/-- C1: for every input string `s` and kind (defaulting to
`FILE_OR_DIR` when omitted), `valid_path` returns a path iff the
kind's existence predicate holds of the expanded path, and otherwise
fails with exactly the error matching the kind: `FileNotFoundError`
for `FILE`, `NotADirectoryError` for `DIR`,
`NoSuchFileOrDirectoryError` for `FILE_OR_DIR`. -/
theorem valid_path_ok_iff_exists (fs : FS) (home s : List Char) (ft : FileType) :
    ((∃ p, valid_path fs home s ft = Except.ok p) ↔
      ft.existsOn fs (expanduser home s) = true)
    ∧ (ft.existsOn fs (expanduser home s) = false →
      valid_path fs home s ft =
        Except.error ((match ft with
          | .FILE => FsError.FileNotFoundError
          | .DIR => FsError.NotADirectoryError
          | .FILE_OR_DIR => FsError.NoSuchFileOrDirectoryError)
          (expanduser home s)))
    ∧ valid_path fs home s = valid_path fs home s .FILE_OR_DIR := by
  refine ⟨?_, ?_, rfl⟩
  · cases hb : ft.existsOn fs (expanduser home s) with
    | true => simp [valid_path, hb]
    | false => simp [valid_path, hb]
  · intro hb
    cases ft <;> simp [valid_path, hb, fileTypeToNotExistsExc] at *

/-- Witness for C1 at a concrete filesystem: asking for a `FILE` at
`/etc` (a directory) fails with `FileNotFoundError` carrying the
path. -/
theorem valid_path_ok_iff_exists_witness :
    valid_path sampleFS "/root".toList "/etc".toList .FILE =
      Except.error (FsError.FileNotFoundError "/etc".toList) :=
  (valid_path_ok_iff_exists sampleFS "/root".toList "/etc".toList .FILE).2.1
    (by decide)

/-- C2: `FileType.exists` returns true iff the filesystem entity at
the path matches the kind — regular file for `FILE`, directory for
`DIR`, plain existence for `FILE_OR_DIR` — and it is a pure boolean
query that returns false rather than failing when the path is
absent. -/
theorem fileType_existsOn_matches_kind (fs : FS) (ft : FileType) (p : List Char) :
    (ft.existsOn fs p = true ↔ (match ft with
      | .FILE => fs p = some .file
      | .DIR => fs p = some .dir
      | .FILE_OR_DIR => ∃ e, fs p = some e))
    ∧ (fs p = none → ft.existsOn fs p = false) := by
  constructor
  · cases ft with
    | FILE =>
      simp only [FileType.existsOn, fileTypeToExistsFn, isFileAt]
      cases h : fs p with
      | none => simp
      | some e => cases e <;> simp
    | DIR =>
      simp only [FileType.existsOn, fileTypeToExistsFn, isDirAt]
      cases h : fs p with
      | none => simp
      | some e => cases e <;> simp
    | FILE_OR_DIR =>
      simp only [FileType.existsOn, fileTypeToExistsFn, existsAt]
      exact Option.isSome_iff_exists
  · intro h
    cases ft <;>
      simp [FileType.existsOn, fileTypeToExistsFn, isFileAt, isDirAt, existsAt, h]

/-- Witness for C2: on the empty filesystem the `FILE` query at the
empty path returns false (no exception, just a boolean). -/
theorem fileType_existsOn_matches_kind_witness :
    FileType.existsOn .FILE (fun _ => none) [] = false :=
  (fileType_existsOn_matches_kind (fun _ => none) .FILE []).2 rfl

/-- C3: whenever `valid_path` succeeds, the returned path is exactly
the tilde-expansion of the input — nothing else is changed (no symlink
resolution, no making absolute). -/
theorem valid_path_returns_expansion (fs : FS) (home s : List Char)
    (ft : FileType) (p : List Char)
    (h : valid_path fs home s ft = Except.ok p) : p = expanduser home s := by
  unfold valid_path at h
  by_cases hb : ft.existsOn fs (expanduser home s) = true
  · rw [if_pos hb] at h
    exact (Except.ok.injEq _ _).mp h.symm |>.symm ▸ rfl
  · rw [if_neg hb] at h
    exact absurd h (by simp)

/-- Witness for C3: validating `~/../etc`-free input `/etc` as a
directory returns it unchanged, equal to its own expansion. -/
theorem valid_path_returns_expansion_witness :
    "/etc".toList = expanduser "/root".toList "/etc".toList :=
  valid_path_returns_expansion sampleFS "/root".toList "/etc".toList .DIR
    "/etc".toList (by rfl)

/-- C10: whenever `valid_path` fails, the exception carries the
expanded path (tilde already replaced by the home directory), not the
raw input. -/
theorem valid_path_error_carries_expansion (fs : FS) (home s : List Char)
    (ft : FileType) (e : FsError)
    (h : valid_path fs home s ft = Except.error e) :
    e.path = expanduser home s := by
  unfold valid_path at h
  by_cases hb : ft.existsOn fs (expanduser home s) = true
  · rw [if_pos hb] at h
    exact absurd h (by simp)
  · rw [if_neg hb] at h
    have he : e = fileTypeToNotExistsExc ft (expanduser home s) := by
      exact ((Except.error.injEq _ _).mp h.symm).symm ▸ rfl
    subst he
    cases ft <;> rfl

/-- Witness for C10: a failure on `~/nope` carries `/root/nope`, the
expanded path, not the raw `~/nope`. -/
theorem valid_path_error_carries_expansion_witness :
    (FsError.NoSuchFileOrDirectoryError "/root/nope".toList).path =
      expanduser "/root".toList "~/nope".toList :=
  valid_path_error_carries_expansion sampleFS "/root".toList "~/nope".toList
    .FILE_OR_DIR (FsError.NoSuchFileOrDirectoryError "/root/nope".toList)
    (by rfl)

/-- C4: the sanitizer equals the spec's reference pipeline — convert,
strip, replace spaces, replace every character outside
letter/digit/underscore/hyphen/period by `_` — whenever the word
predicate `w` is letters-or-digits-or-underscore; and concretely
`get_valid_filename "5678^()^" = "5678____"`. -/
theorem get_valid_filename_matches_spec (letter digit w : Char → Bool)
    (hw : ∀ c, w c = (letter c || digit c || c = '_')) (s : List Char) :
    get_valid_filename w s = sanitize_filename_spec letter digit s ∧
    get_valid_filename isWordChar "5678^()^".toList = "5678____".toList := by
  constructor
  · unfold get_valid_filename sanitize_filename_spec subNonWord replaceSpace pyStrip
    refine List.map_congr_left fun c _ => ?_
    rw [hw c]
  · decide

/-- Witness for C4: instantiate the word predicate with the ASCII
letters/digits split, at a concrete input containing a space, a hyphen,
a period and a disallowed character. -/
theorem get_valid_filename_matches_spec_witness :
    (get_valid_filename isWordChar "a-b c*.txt".toList =
      sanitize_filename_spec Char.isAlpha Char.isDigit "a-b c*.txt".toList) ∧
    get_valid_filename isWordChar "5678^()^".toList = "5678____".toList :=
  get_valid_filename_matches_spec Char.isAlpha Char.isDigit isWordChar
    (fun _ => rfl) "a-b c*.txt".toList

/-- C5: the sanitizer is idempotent, for any word predicate that
accepts `_` and accepts no whitespace character (both true of the
regex `\w` class). -/
theorem get_valid_filename_idem (w : Char → Bool) (hu : w '_' = true)
    (hws : ∀ c, w c = true → c.isWhitespace = false) (s : List Char) :
    get_valid_filename w (get_valid_filename w s) = get_valid_filename w s := by
  have hkeep : ∀ c ∈ get_valid_filename w s, (w c || c = '-' || c = '.') = true :=
    fun c hc => mem_get_valid_filename hu hc
  have hnws : ∀ c ∈ get_valid_filename w s, c.isWhitespace = false := by
    intro c hc
    have hk := hkeep c hc
    simp only [Bool.or_eq_true, decide_eq_true_eq] at hk
    rcases hk with (hw | rfl) | rfl
    · exact hws c hw
    · rfl
    · rfl
  have hnsp : ∀ c ∈ get_valid_filename w s, ¬c = ' ' := by
    intro c hc heq
    have := hnws c hc
    rw [heq] at this
    exact absurd this (by decide)
  show subNonWord w (replaceSpace (pyStrip (get_valid_filename w s))) =
    get_valid_filename w s
  rw [pyStrip_eq_self hnws, replaceSpace_eq_self hnsp, subNonWord_eq_self hkeep]

/-- Witness for C5: idempotence at the ASCII word predicate on a
concrete input that needs both stripping and substitution. -/
theorem get_valid_filename_idem_witness :
    get_valid_filename isWordChar
        (get_valid_filename isWordChar " a b^".toList) =
      get_valid_filename isWordChar " a b^".toList :=
  get_valid_filename_idem isWordChar rfl isWordChar_not_whitespace
    " a b^".toList

/-- C7: the sanitizer is total — in this embedding it is a plain
function into strings with no error channel, defined on every input —
and it maps the empty string to the empty string. -/
theorem get_valid_filename_empty (w : Char → Bool) :
    get_valid_filename w [] = [] := rfl

/-- C8: every character of the sanitizer's output is a word character,
a hyphen, or a period; in particular the output never contains
whitespace or the path separator `/`.  The hypotheses on `w` — it
accepts `_`, rejects all whitespace, and rejects `/` — hold of the
regex `\w` class. -/
theorem get_valid_filename_chars (w : Char → Bool) (hu : w '_' = true)
    (hws : ∀ c, w c = true → c.isWhitespace = false) (hsl : w '/' = false)
    (s : List Char) (c : Char) (hc : c ∈ get_valid_filename w s) :
    (w c = true ∨ c = '-' ∨ c = '.') ∧ c.isWhitespace = false ∧ c ≠ '/' := by
  have hk := mem_get_valid_filename hu hc
  simp only [Bool.or_eq_true, decide_eq_true_eq] at hk
  rcases hk with (hw | rfl) | rfl
  · refine ⟨Or.inl hw, hws c hw, fun heq => ?_⟩
    rw [heq] at hw
    rw [hsl] at hw
    exact absurd hw (by decide)
  · exact ⟨Or.inr (Or.inl rfl), rfl, by decide⟩
  · exact ⟨Or.inr (Or.inr rfl), rfl, by decide⟩

/-- Witness for C8 at the ASCII word predicate: the underscore
produced from `^` in `a^`'s output is a word character, not
whitespace, not a slash. -/
theorem get_valid_filename_chars_witness :
    (isWordChar '_' = true ∨ '_' = '-' ∨ '_' = '.') ∧
      ('_'.isWhitespace = false ∧ '_' ≠ '/') :=
  let h := get_valid_filename_chars isWordChar rfl isWordChar_not_whitespace
    rfl "a^".toList '_' (by decide)
  ⟨h.1, h.2⟩

/-- C9: the sanitizer never lengthens its input — stripping only
removes characters and each substitution replaces one character by
one `_`. -/
theorem get_valid_filename_length_le (w : Char → Bool) (s : List Char) :
    (get_valid_filename w s).length ≤ s.length := by
  unfold get_valid_filename subNonWord replaceSpace pyStrip
  simp only [List.length_map, List.length_reverse]
  exact Nat.le_trans
    (length_dropWhile_le _ _)
    (by simpa using length_dropWhile_le s Char.isWhitespace)

/-- C6 counterexample: on the two-character (single-byte) input
`" a"`, the sanitizer strips the leading space, so the output has
length 1, not 2 — the claimed length preservation fails. -/
theorem get_valid_filename_not_length_preserving :
    ¬((get_valid_filename isWordChar " a".toList).length =
      (" a".toList).length) := by decide

/-- C6 (amended): for every input with no leading or trailing
whitespace — i.e. on which the strip is a no-op — the sanitizer's
output has the same length as the input, since each remaining step
replaces characters one for one. -/
theorem get_valid_filename_length_eq (w : Char → Bool) (s : List Char)
    (h : pyStrip s = s) :
    (get_valid_filename w s).length = s.length := by
  show (subNonWord w (replaceSpace (pyStrip s))).length = s.length
  rw [h]
  simp [subNonWord, replaceSpace, List.length_map]

/-- Witness for the amended C6 at a concrete stripped input. -/
theorem get_valid_filename_length_eq_witness :
    (get_valid_filename isWordChar "a^b".toList).length =
      ("a^b".toList).length :=
  get_valid_filename_length_eq isWordChar "a^b".toList (by decide)
